import Mathlib

/-!
Verification of the interaction scoring and social-graph layout engine of the
xkit repository (src/lib/interaction-calculator.ts, src/lib/family-tree-calculator.ts,
src/components/D3TwitterCircle.tsx).

Modelling conventions, shared by all definitions below:

* JavaScript `Map` objects (insertion-ordered, one value per key) are modelled
  as association lists (`JsMap`).  `mapSet` replaces an existing binding in
  place (keeping its position, as JS `Map.set` does) or appends a new one.

* Date strings are modelled by their parse result: `Option Int`, the number of
  milliseconds since the epoch that `Date.parse` would return, with `none`
  standing for a malformed string (JS `NaN` / Invalid Date).  Comparisons of
  `Date` objects follow JS semantics: any comparison involving an invalid
  date is false (`dateAfter`).  The initial bucket timestamp string
  '1970-01-01T00:00:00.000Z' parses to `some 0`.

* JS numbers are IEEE doubles; every double value is a rational, so scores,
  weights and configuration coefficients are modelled over `ℚ`.  The one
  transcendental operation, `Math.exp` in the weight formula, is modelled by
  `Real.exp` over `ℝ` (`calculateWeight`).

* `Math.floor(n * 0.15)`, `Math.floor(n * 0.35)` and `Math.floor(n * 0.4)` on
  a list length `n` are modelled by exact natural division `n * 15 / 100`,
  `n * 35 / 100`, `n * 40 / 100`.  Double rounding first makes the floor
  differ from the exact value at `n = 180` (for 0.35), far above the point
  where the surrounding `min` caps (8 / 16 / 24 resp. 10) saturate, so every
  clamped quantity used by the partitioner agrees with the double computation
  at every `n`.
-/

namespace XKit

/-! ## JS `Map` model -/

/-- Association-list model of a JS `Map` keyed by strings. -/
abbrev JsMap (β : Type) := List (String × β)

/-- JS `Map.get`. -/
def mapLookup {β : Type} (m : JsMap β) (k : String) : Option β :=
  match m with
  | [] => none
  | (k₁, v) :: rest => if k₁ = k then some v else mapLookup rest k

/-- JS `Map.set`: replace the binding in place if the key exists, else append. -/
def mapSet {β : Type} (m : JsMap β) (k : String) (v : β) : JsMap β :=
  match m with
  | [] => [(k, v)]
  | (k₁, v₁) :: rest => if k₁ = k then (k, v) :: rest else (k₁, v₁) :: mapSet rest k v

/-- JS `Map.has`. -/
def mapHas {β : Type} (m : JsMap β) (k : String) : Bool :=
  (mapLookup m k).isSome

/-- JS `Array.from(map.values())` (insertion order). -/
def mapValues {β : Type} (m : JsMap β) : List β :=
  m.map (·.2)

/-- JS `Array.from(map.keys())` (insertion order). -/
def mapKeys {β : Type} (m : JsMap β) : List String :=
  m.map (·.1)

/-! ## Data model (src/lib/twitter-adapter.ts) -/

/-- A Twitter account as the adapter narrows it. -/
structure TwitterUser where
  id : String
  username : String
  displayName : String
  avatar : String
  verified : Bool
deriving DecidableEq

/-- The `type` field of `TwitterTweet`. -/
inductive TweetType
  | reply
  | quote
  | retweet
  | original
deriving DecidableEq

/-- A tweet as the adapter narrows it.  `createdAt` is the parse result of the
date string.  The fields unused by the engine (`quotedTweet`,
`retweetedTweet`, the three counters) are omitted; `quotedTweet` and
`retweetedTweet` would also make the structure recursive. -/
structure TwitterTweet where
  id : String
  text : String
  author : TwitterUser
  createdAt : Option Int
  type : TweetType
  replyTo : Option TwitterUser
deriving DecidableEq

/-- A like record; `likedAt` is the parse result of the date string. -/
structure TwitterLike where
  id : String
  tweet : TwitterTweet
  likedAt : Option Int
deriving DecidableEq

/-! ## Interaction calculator (src/lib/interaction-calculator.ts) -/

/-- The `type` field of `InteractionEvent`. -/
inductive InteractionType
  | reply
  | quote
  | retweet
  | like
deriving DecidableEq

/-- The `direction` field of `InteractionEvent`. -/
inductive InteractionDirection
  | incoming
  | outgoing
deriving DecidableEq

/-- One attributed interaction event; `timestamp` is the parse result of the
event's date string (`none` = malformed). -/
structure InteractionEvent where
  type : InteractionType
  direction : InteractionDirection
  timestamp : Option Int
  tweetId : String
deriving DecidableEq

/-- The `interactions` counter block of a stat bucket. -/
structure InteractionCounts where
  replies : Nat
  incomingReplies : Nat
  outgoingReplies : Nat
  quotes : Nat
  retweets : Nat
  likes : Nat
deriving DecidableEq

/-- A per-counterpart stat bucket (`UserInteraction` in the source).
`lastInteraction` is the parse result of the stored date string; buckets are
created with the epoch string, i.e. `some 0`. -/
structure UserInteraction where
  user : TwitterUser
  interactions : InteractionCounts
  weight : ℚ
  lastInteraction : Option Int
  interactionHistory : List InteractionEvent
deriving DecidableEq

/-- JS `new Date(a) > new Date(b)`: false whenever either date is invalid. -/
def dateAfter : Option Int → Option Int → Bool
  | some a, some b => decide (b < a)
  | _, _ => false

/-- The weight configuration (`WeightConfig` in the source). -/
structure WeightConfig where
  reply : ℚ
  quote : ℚ
  retweet : ℚ
  like : ℚ
  timeDecayFactor : ℚ
deriving DecidableEq

/-- The built-in default configuration: reply 3.0, quote 2.5, retweet 1.5,
like 0.5, decay 0.1 per day. -/
def defaultWeightConfig : WeightConfig :=
  { reply := 3, quote := 5/2, retweet := 3/2, like := 1/2, timeDecayFactor := 1/10 }

/-- A TS `Partial<WeightConfig>`: each field optionally present. -/
structure WeightConfigPatch where
  reply : Option ℚ
  quote : Option ℚ
  retweet : Option ℚ
  like : Option ℚ
  timeDecayFactor : Option ℚ
deriving DecidableEq

/-- JS spread merge of a partial configuration over a base configuration. -/
def mergeWeightConfig (base : WeightConfig) (patch : WeightConfigPatch) : WeightConfig :=
  { reply := patch.reply.getD base.reply
    quote := patch.quote.getD base.quote
    retweet := patch.retweet.getD base.retweet
    like := patch.like.getD base.like
    timeDecayFactor := patch.timeDecayFactor.getD base.timeDecayFactor }

/-- Error taxonomy named by the specification for the calculator.  The source
declares no such type; it is introduced here only so that the constructor's
embedding has an error channel in its result type. -/
inductive CalcError
  | configurationError
deriving DecidableEq

/-- The `InteractionCalculator` constructor: merges an optional partial
configuration over the defaults.  The source performs no validation and
cannot throw, so the embedding returns `Except.ok` unconditionally. -/
def mkInteractionCalculatorConfig (config : Option WeightConfigPatch) :
    Except CalcError WeightConfig :=
  match config with
  | some c => Except.ok (mergeWeightConfig defaultWeightConfig c)
  | none => Except.ok defaultWeightConfig

/-- The fresh stat bucket that `getOrCreateUserInteraction` installs for an
unknown counterpart. -/
def freshUserInteraction (user : TwitterUser) : UserInteraction :=
  { user := user
    interactions := { replies := 0, incomingReplies := 0, outgoingReplies := 0,
                      quotes := 0, retweets := 0, likes := 0 }
    weight := 0
    lastInteraction := some 0
    interactionHistory := [] }

/-- `getOrCreateUserInteraction`: the bucket for `userId`, or a fresh one.
In the source this also inserts the fresh bucket into the (mutable) map; here
the caller `recordInteraction` writes the updated bucket back under the same
key, which yields the same final map. -/
def getOrCreateUserInteraction (userMap : JsMap UserInteraction) (userId : String)
    (user : TwitterUser) : UserInteraction :=
  (mapLookup userMap userId).getD (freshUserInteraction user)

/-- The `switch (event.type)` counter update inside `recordInteraction`. -/
def bumpCounts (c : InteractionCounts) (t : InteractionType) (d : InteractionDirection) :
    InteractionCounts :=
  match t with
  | .reply =>
    let c' := { c with replies := c.replies + 1 }
    match d with
    | .incoming => { c' with incomingReplies := c'.incomingReplies + 1 }
    | .outgoing => { c' with outgoingReplies := c'.outgoingReplies + 1 }
  | .like => { c with likes := c.likes + 1 }
  | .quote => { c with quotes := c.quotes + 1 }
  | .retweet => { c with retweets := c.retweets + 1 }

/-- `InteractionCalculator.recordInteraction`: attribute one event to the
bucket of `interactingUser`, unless that user is the analyzed account. -/
def recordInteraction (userMap : JsMap UserInteraction)
    (interactingUser currentUser : TwitterUser) (event : InteractionEvent) :
    JsMap UserInteraction :=
  if interactingUser.id = currentUser.id then userMap
  else
    let ui := getOrCreateUserInteraction userMap interactingUser.id interactingUser
    let ui := { ui with user := interactingUser }
    let ui := { ui with interactions := bumpCounts ui.interactions event.type event.direction }
    let ui := { ui with interactionHistory := ui.interactionHistory ++ [event] }
    let ui := if dateAfter event.timestamp ui.lastInteraction then
                { ui with lastInteraction := event.timestamp }
              else ui
    mapSet userMap interactingUser.id ui

/-- `InteractionCalculator.parseInteractions`: fold the reply batch and the
like batch into one stat bucket per counterpart. -/
def parseInteractions (replies : List TwitterTweet) (likes : List TwitterLike)
    (currentUser : TwitterUser) : JsMap UserInteraction :=
  let m := replies.foldl (fun m tweet =>
    match tweet.type with
    | .reply =>
      if tweet.author.id = currentUser.id then
        match tweet.replyTo with
        | none => m
        | some target =>
          recordInteraction m target currentUser
            { type := .reply, direction := .outgoing, timestamp := tweet.createdAt,
              tweetId := tweet.id }
      else
        match tweet.replyTo with
        | some target =>
          if target.id = currentUser.id then
            recordInteraction m tweet.author currentUser
              { type := .reply, direction := .incoming, timestamp := tweet.createdAt,
                tweetId := tweet.id }
          else m
        | none => m
    | .quote =>
      recordInteraction m tweet.author currentUser
        { type := .quote, direction := .incoming, timestamp := tweet.createdAt,
          tweetId := tweet.id }
    | .retweet =>
      recordInteraction m tweet.author currentUser
        { type := .retweet, direction := .incoming, timestamp := tweet.createdAt,
          tweetId := tweet.id }
    | .original => m) []
  likes.foldl (fun m like =>
    recordInteraction m like.tweet.author currentUser
      { type := .like, direction := .incoming, timestamp := like.likedAt,
        tweetId := like.tweet.id }) m

/-- The body of the `calculateWeights` loop for one bucket whose stored
`lastInteraction` string parses to `lastInteractionTs` (buckets produced by
the aggregator always carry a parseable timestamp): the coefficient-weighted
counter sum, decayed exponentially by days since the last interaction
relative to the injected `now` (milliseconds).  The surrounding `forEach`
merely stores this value back into each bucket. -/
noncomputable def calculateWeight (config : WeightConfig) (counts : InteractionCounts)
    (lastInteractionTs now : Int) : ℝ :=
  let totalWeight : ℝ :=
    counts.replies * (config.reply : ℝ) + counts.quotes * (config.quote : ℝ) +
    counts.retweets * (config.retweet : ℝ) + counts.likes * (config.like : ℝ)
  let daysSinceLastInteraction : ℝ :=
    ((now - lastInteractionTs : Int) : ℝ) / (1000 * 60 * 60 * 24)
  let timeDecay : ℝ := Real.exp (-(config.timeDecayFactor : ℝ) * daysSinceLastInteraction)
  totalWeight * timeDecay

/-- The `.sort((a, b) => b.weight - a.weight)` call: stable, descending by
weight (a JS comparator value `b.weight - a.weight ≤ 0` keeps `a` first). -/
def sortByWeightDesc (users : List UserInteraction) : List UserInteraction :=
  users.mergeSort fun a b => decide (b.weight ≤ a.weight)

/-- `CircleData` restricted to the fields the engine computes from its inputs;
`analysisDate` and `timeRange` (ambient clock / presentation only) are
omitted. -/
structure CircleData where
  users : List UserInteraction
  currentUser : TwitterUser
  totalUsers : Nat
  totalReplies : Nat
  totalLikes : Nat
  totalIncomingReplies : Nat
  totalOutgoingReplies : Nat
deriving DecidableEq

/-- `InteractionCalculator.generateCircleData`: keep strictly positive
weights, drop the analyzed account, sort descending by weight, cap at
`limit` (callers pass 48), then total the counters. -/
def generateCircleData (userInteractions : JsMap UserInteraction)
    (currentUser : TwitterUser) (limit : Nat) : CircleData :=
  let sortedUsers :=
    (sortByWeightDesc
      (((mapValues userInteractions).filter fun u => decide (0 < u.weight)).filter
        fun u => decide (u.user.id ≠ currentUser.id))).take limit
  let incoming := sortedUsers.foldl (fun acc u => acc + u.interactions.incomingReplies) 0
  let outgoing := sortedUsers.foldl (fun acc u => acc + u.interactions.outgoingReplies) 0
  let likes := sortedUsers.foldl (fun acc u => acc + u.interactions.likes) 0
  { users := sortedUsers
    currentUser := currentUser
    totalUsers := sortedUsers.length
    totalReplies := incoming + outgoing
    totalLikes := likes
    totalIncomingReplies := incoming
    totalOutgoingReplies := outgoing }

/-! ## Relationship classifier and rank selector (src/lib/family-tree-calculator.ts) -/

/-- One relationship record (`UserRelationship` in the source). -/
structure UserRelationship where
  user : TwitterUser
  isFollowing : Bool
  isFollower : Bool
  isMutual : Bool
deriving DecidableEq

/-- The `following.forEach` body of `buildRelationships`:
`decide (user.id ∈ followerIds)` models the JS `followerIds.has(user.id)`
lookup-set test. -/
def followingStep (followerIds : List String) (m : JsMap UserRelationship)
    (user : TwitterUser) : JsMap UserRelationship :=
  let isMutual := decide (user.id ∈ followerIds)
  mapSet m user.id
    { user := user, isFollowing := true, isFollower := isMutual, isMutual := isMutual }

/-- The `followers.forEach` body of `buildRelationships`: add followers not
already recorded. -/
def followersStep (m : JsMap UserRelationship) (user : TwitterUser) : JsMap UserRelationship :=
  if mapHas m user.id then m
  else mapSet m user.id
    { user := user, isFollowing := false, isFollower := true, isMutual := false }

/-- `FamilyTreeCalculator.buildRelationships`: one record per identity seen in
either list (the two `forEach` closures are the named step functions above). -/
def buildRelationships (following followers : List TwitterUser) : JsMap UserRelationship :=
  let followerIds := followers.map (·.id)
  followers.foldl followersStep (following.foldl (followingStep followerIds) [])

/-- The cached per-node sort metrics (`NodeSortMetrics` in the source). -/
structure NodeSortMetrics where
  totalScore : ℚ
  relationPriority : ℚ
  interactionWeight : ℚ
  lastInteractionTimestamp : Int
  verifiedBonus : ℚ
deriving DecidableEq

/-- The `computeMetrics` closure of `generateTreeData` (the memoization cache
is semantically transparent and elided).  `interaction?.weight ?? 0` is the
`getD 0`; the timestamp key is the parsed `lastInteraction` when the record
exists, is a truthy string and parses to a finite number, and `0` otherwise. -/
def computeMetrics (relationship : UserRelationship) (interaction : Option UserInteraction) :
    NodeSortMetrics :=
  let relationPriority : ℚ :=
    if relationship.isMutual then 3
    else if relationship.isFollowing then 2
    else if relationship.isFollower then 1
    else 0
  let interactionWeight : ℚ := (interaction.map (·.weight)).getD 0
  let verifiedBonus : ℚ := if relationship.user.verified then 10 else 0
  let lastInteractionTimestamp : Int :=
    match interaction with
    | some i => i.lastInteraction.getD 0
    | none => 0
  { totalScore := relationPriority * 50 + interactionWeight + verifiedBonus
    relationPriority := relationPriority
    interactionWeight := interactionWeight
    lastInteractionTimestamp := lastInteractionTimestamp
    verifiedBonus := verifiedBonus }

/-- A tree node restricted to the fields the comparator reads (`id` for the
metrics cache, `name` for the final tie-break). -/
structure TreeNode where
  id : String
  name : String
deriving DecidableEq

/-- `name.localeCompare(other, undefined, { sensitivity: 'base' })`: the sign
of the case-insensitive comparison. -/
def localeCompareBase (a b : String) : ℚ :=
  match compare a.toLower b.toLower with
  | .lt => -1
  | .eq => 0
  | .gt => 1

/-- The `compareNodes` closure of `generateTreeData`.  A negative result
ranks `a` before `b`.  `generateTreeData` fills the cache for every candidate
before sorting, so the fall-through arm is never taken there. -/
def compareNodes (metricsCache : JsMap NodeSortMetrics) (a b : TreeNode) : ℚ :=
  match mapLookup metricsCache a.id, mapLookup metricsCache b.id with
  | some metricsA, some metricsB =>
    if metricsA.totalScore ≠ metricsB.totalScore then
      metricsB.totalScore - metricsA.totalScore
    else if metricsA.lastInteractionTimestamp ≠ metricsB.lastInteractionTimestamp then
      ((metricsB.lastInteractionTimestamp - metricsA.lastInteractionTimestamp : Int) : ℚ)
    else if metricsA.interactionWeight ≠ metricsB.interactionWeight then
      metricsB.interactionWeight - metricsA.interactionWeight
    else localeCompareBase a.name b.name
  | _, _ => localeCompareBase a.name b.name

/-- The score formula exactly as the specification words it, for comparison
with the source's `computeMetrics`:
relationClassPriority × 50 + weight + (verified ? 10 : 0), priorities
3 (mutual) / 2 (following-only) / 1 (follower-only) / 0, missing interaction
record contributing weight 0. -/
def scoreSpec (relationship : UserRelationship) (interaction : Option UserInteraction) : ℚ :=
  (if relationship.isMutual then 3
   else if relationship.isFollowing then 2
   else if relationship.isFollower then 1
   else 0) * 50
  + (match interaction with
     | some i => i.weight
     | none => 0)
  + (if relationship.user.verified then 10 else 0)

/-! ## Radial partitioner (src/components/D3TwitterCircle.tsx) -/

/-- The three concentric rings of the radial layout. -/
structure RingPartition (α : Type) where
  core : List α
  inner : List α
  outer : List α
deriving DecidableEq

/-- Three consecutive slices of `s`: `slice(0, a)`, then
`slice(core.length, core.length + b)`, then
`slice(core.length + inner.length, core.length + inner.length + c)`
(`slice(start, start + k)` is `(drop start).take k`). -/
def partitionBy {α : Type} (s : List α) (a b c : Nat) : RingPartition α :=
  let x := s.take a
  let y := (s.drop x.length).take b
  let z := (s.drop (x.length + y.length)).take c
  ⟨x, y, z⟩

/-- The ring-assignment block of `D3TwitterCircle` (lines 60-102): sort by
descending weight, then distribute into core / inner / outer by candidate
count.  The thresholds are `minCoreUsers = 6`, `minInnerUsers = 12`,
`minOuterUsers = 18`.  Subtractions stay in range: in the first branch
`coreCount + innerCount ≤ 24 < 36 ≤ n`, in the second `coreCount ≤ 10 < 18 ≤ n`. -/
def partitionUsers (users : List UserInteraction) : RingPartition UserInteraction :=
  let sortedUsers := sortByWeightDesc users
  if 6 + 12 + 18 ≤ sortedUsers.length then
    let coreCount := min 8 (sortedUsers.length * 15 / 100)
    let innerCount := min 16 (sortedUsers.length * 35 / 100)
    let outerCount := min 24 (sortedUsers.length - coreCount - innerCount)
    partitionBy sortedUsers (max coreCount 6) (max innerCount 12) (max outerCount 18)
  else if 6 + 12 ≤ sortedUsers.length then
    let coreCount := min 10 (sortedUsers.length * 40 / 100)
    let innerCount := sortedUsers.length - coreCount
    partitionBy sortedUsers (max coreCount 6) (max innerCount 12) 0
  else if 6 ≤ sortedUsers.length then
    partitionBy sortedUsers (min sortedUsers.length 20) 0 0
  else
    partitionBy sortedUsers (min sortedUsers.length 12) 0 0

/-- The number of rings actually produced: a ring exists iff it has members
(an empty member list draws nothing). -/
def ringCount {α : Type} (p : RingPartition α) : Nat :=
  (if p.core.isEmpty then 0 else 1) + (if p.inner.isEmpty then 0 else 1) +
    (if p.outer.isEmpty then 0 else 1)

/-! ## Helper lemmas: the `JsMap` model -/

theorem mapLookup_nil {β : Type} (k : String) : mapLookup ([] : JsMap β) k = none := rfl

theorem mapLookup_cons {β : Type} (k₁ : String) (v₁ : β) (t : JsMap β) (k : String) :
    mapLookup ((k₁, v₁) :: t) k = if k₁ = k then some v₁ else mapLookup t k := rfl

theorem mapSet_nil {β : Type} (k : String) (v : β) : mapSet ([] : JsMap β) k v = [(k, v)] := rfl

theorem mapSet_cons {β : Type} (k₁ : String) (v₁ : β) (t : JsMap β) (k : String) (v : β) :
    mapSet ((k₁, v₁) :: t) k v = if k₁ = k then (k, v) :: t else (k₁, v₁) :: mapSet t k v := rfl

theorem mapLookup_mapSet {β : Type} (m : JsMap β) (k k' : String) (v : β) :
    mapLookup (mapSet m k v) k' = if k = k' then some v else mapLookup m k' := by
  induction m with
  | nil => rw [mapSet_nil, mapLookup_cons, mapLookup_nil]
  | cons head tail ih =>
    obtain ⟨k₁, v₁⟩ := head
    rw [mapSet_cons]
    by_cases h₁ : k₁ = k
    · subst h₁
      rw [if_pos rfl, mapLookup_cons, mapLookup_cons]
      by_cases h₂ : k₁ = k'
      · rw [if_pos h₂, if_pos h₂]
      · rw [if_neg h₂, if_neg h₂, if_neg h₂]
    · rw [if_neg h₁, mapLookup_cons, mapLookup_cons, ih]
      by_cases h₂ : k₁ = k'
      · subst h₂
        have hkk : ¬k = k₁ := fun h => h₁ h.symm
        rw [if_pos rfl, if_pos rfl, if_neg hkk]
      · rw [if_neg h₂, if_neg h₂]

theorem mapKeys_nil {β : Type} : mapKeys ([] : JsMap β) = [] := rfl

theorem mapKeys_cons {β : Type} (k₁ : String) (v₁ : β) (t : JsMap β) :
    mapKeys ((k₁, v₁) :: t) = k₁ :: mapKeys t := rfl

theorem mapValues_cons {β : Type} (k₁ : String) (v₁ : β) (t : JsMap β) :
    mapValues ((k₁, v₁) :: t) = v₁ :: mapValues t := rfl

theorem mem_mapKeys_mapSet {β : Type} (m : JsMap β) (k k' : String) (v : β) :
    k' ∈ mapKeys (mapSet m k v) ↔ k' = k ∨ k' ∈ mapKeys m := by
  induction m with
  | nil =>
    rw [mapSet_nil, mapKeys_cons, mapKeys_nil]
    simp
  | cons head tail ih =>
    obtain ⟨k₁, v₁⟩ := head
    rw [mapSet_cons]
    by_cases h₁ : k₁ = k
    · subst h₁
      rw [if_pos rfl, mapKeys_cons, mapKeys_cons]
      simp only [List.mem_cons]
      tauto
    · rw [if_neg h₁, mapKeys_cons, mapKeys_cons]
      simp only [List.mem_cons, ih]
      tauto

theorem nodup_mapKeys_mapSet {β : Type} (m : JsMap β) (k : String) (v : β)
    (h : (mapKeys m).Nodup) : (mapKeys (mapSet m k v)).Nodup := by
  induction m with
  | nil =>
    rw [mapSet_nil, mapKeys_cons, mapKeys_nil]
    simp
  | cons head tail ih =>
    obtain ⟨k₁, v₁⟩ := head
    rw [mapKeys_cons, List.nodup_cons] at h
    rw [mapSet_cons]
    by_cases h₁ : k₁ = k
    · subst h₁
      rw [if_pos rfl, mapKeys_cons, List.nodup_cons]
      exact h
    · rw [if_neg h₁, mapKeys_cons, List.nodup_cons]
      refine ⟨fun hmem => ?_, ih h.2⟩
      rcases (mem_mapKeys_mapSet tail k k₁ v).mp hmem with h2 | h2
      · exact h₁ h2
      · exact h.1 h2

theorem foldl_invariant {α β : Type} (P : β → Prop) (f : β → α → β) (l : List α) (init : β)
    (h0 : P init) (hstep : ∀ b a, P b → P (f b a)) : P (l.foldl f init) := by
  induction l generalizing init with
  | nil => exact h0
  | cons a l ih => exact ih (f init a) (hstep init a h0)

/-! ## Helper lemmas: sorting and the ring slices -/

theorem length_sortByWeightDesc (users : List UserInteraction) :
    (sortByWeightDesc users).length = users.length :=
  List.length_mergeSort ..

theorem perm_sortByWeightDesc (users : List UserInteraction) :
    (sortByWeightDesc users).Perm users :=
  List.mergeSort_perm ..

theorem mem_sortByWeightDesc {users : List UserInteraction} {u : UserInteraction} :
    u ∈ sortByWeightDesc users ↔ u ∈ users :=
  List.mem_mergeSort

theorem partitionBy_core {α : Type} (s : List α) (a b c : Nat) :
    (partitionBy s a b c).core = s.take a := rfl

theorem partitionBy_inner {α : Type} (s : List α) (a b c : Nat) :
    (partitionBy s a b c).inner = (s.drop (s.take a).length).take b := rfl

theorem partitionBy_outer {α : Type} (s : List α) (a b c : Nat) :
    (partitionBy s a b c).outer =
      (s.drop ((s.take a).length + ((s.drop (s.take a).length).take b).length)).take c := rfl

theorem partitionBy_core_length {α : Type} (s : List α) (a b c : Nat) :
    (partitionBy s a b c).core.length = min a s.length := by
  rw [partitionBy_core, List.length_take]

theorem partitionBy_inner_length {α : Type} (s : List α) (a b c : Nat) :
    (partitionBy s a b c).inner.length = min b (s.length - min a s.length) := by
  rw [partitionBy_inner]
  simp only [List.length_take, List.length_drop]

theorem partitionBy_outer_length {α : Type} (s : List α) (a b c : Nat) :
    (partitionBy s a b c).outer.length =
      min c (s.length - min a s.length - min b (s.length - min a s.length)) := by
  rw [partitionBy_outer]
  simp only [List.length_take, List.length_drop]
  omega

theorem take_three_concat {α : Type} (s : List α) (a b c : Nat) :
    s.take ((s.take a).length + (((s.drop (s.take a).length).take b).length +
        ((s.drop ((s.take a).length + ((s.drop (s.take a).length).take b).length)).take c).length)) =
      s.take a ++ ((s.drop (s.take a).length).take b ++
        (s.drop ((s.take a).length + ((s.drop (s.take a).length).take b).length)).take c) := by
  have h1 : s.take ((s.take a).length) = s.take a :=
    List.take_eq_take.mpr (by rw [List.length_take]; omega)
  have h2 : (s.drop (s.take a).length).take (((s.drop (s.take a).length).take b).length) =
      (s.drop (s.take a).length).take b :=
    List.take_eq_take.mpr (by rw [List.length_take]; omega)
  have h3 : (s.drop ((s.take a).length + ((s.drop (s.take a).length).take b).length)).take
        (((s.drop ((s.take a).length + ((s.drop (s.take a).length).take b).length)).take c).length) =
      (s.drop ((s.take a).length + ((s.drop (s.take a).length).take b).length)).take c :=
    List.take_eq_take.mpr (by rw [List.length_take]; omega)
  have h4 : (s.drop (s.take a).length).drop (((s.drop (s.take a).length).take b).length) =
      s.drop ((s.take a).length + ((s.drop (s.take a).length).take b).length) := by
    rw [List.drop_drop, Nat.add_comm]
  rw [List.take_add, h1, List.take_add, h2, h4, h3]

theorem partitionBy_concat {α : Type} (s : List α) (a b c : Nat) :
    (partitionBy s a b c).core ++ ((partitionBy s a b c).inner ++ (partitionBy s a b c).outer) =
      s.take ((partitionBy s a b c).core.length + ((partitionBy s a b c).inner.length +
        (partitionBy s a b c).outer.length)) := by
  rw [partitionBy_core, partitionBy_inner, partitionBy_outer]
  exact (take_three_concat s a b c).symm

theorem mem_partitionBy {α : Type} {s : List α} {a b c : Nat} {u : α}
    (h : u ∈ (partitionBy s a b c).core ∨ u ∈ (partitionBy s a b c).inner ∨
      u ∈ (partitionBy s a b c).outer) : u ∈ s := by
  rcases h with h | h | h
  · rw [partitionBy_core] at h
    exact List.mem_of_mem_take h
  · rw [partitionBy_inner] at h
    exact List.mem_of_mem_drop (List.mem_of_mem_take h)
  · rw [partitionBy_outer] at h
    exact List.mem_of_mem_drop (List.mem_of_mem_take h)

theorem partitionUsers_eq_of_36 (users : List UserInteraction) (h : 36 ≤ users.length) :
    partitionUsers users =
      partitionBy (sortByWeightDesc users) (max (min 8 (users.length * 15 / 100)) 6)
        (max (min 16 (users.length * 35 / 100)) 12)
        (max (min 24 (users.length - min 8 (users.length * 15 / 100) -
          min 16 (users.length * 35 / 100))) 18) := by
  simp only [partitionUsers, length_sortByWeightDesc]
  rw [if_pos (show 6 + 12 + 18 ≤ users.length by omega)]

theorem partitionUsers_eq_of_18 (users : List UserInteraction) (h18 : 18 ≤ users.length)
    (h36 : users.length < 36) :
    partitionUsers users =
      partitionBy (sortByWeightDesc users) (max (min 10 (users.length * 40 / 100)) 6)
        (max (users.length - min 10 (users.length * 40 / 100)) 12) 0 := by
  simp only [partitionUsers, length_sortByWeightDesc]
  rw [if_neg (by omega), if_pos (show 6 + 12 ≤ users.length by omega)]

theorem partitionUsers_eq_of_6 (users : List UserInteraction) (h6 : 6 ≤ users.length)
    (h18 : users.length < 18) :
    partitionUsers users =
      partitionBy (sortByWeightDesc users) (min users.length 20) 0 0 := by
  simp only [partitionUsers, length_sortByWeightDesc]
  rw [if_neg (by omega), if_neg (by omega), if_pos h6]

theorem partitionUsers_eq_of_small (users : List UserInteraction) (h6 : users.length < 6) :
    partitionUsers users =
      partitionBy (sortByWeightDesc users) (min users.length 12) 0 0 := by
  simp only [partitionUsers, length_sortByWeightDesc]
  rw [if_neg (by omega), if_neg (by omega), if_neg (by omega)]

theorem exists_partitionBy (users : List UserInteraction) :
    ∃ a b c, partitionUsers users = partitionBy (sortByWeightDesc users) a b c := by
  rcases Nat.lt_or_ge users.length 6 with h | h
  · exact ⟨_, _, _, partitionUsers_eq_of_small users h⟩
  rcases Nat.lt_or_ge users.length 18 with h' | h'
  · exact ⟨_, _, _, partitionUsers_eq_of_6 users h h'⟩
  rcases Nat.lt_or_ge users.length 36 with h'' | h''
  · exact ⟨_, _, _, partitionUsers_eq_of_18 users h' h''⟩
  · exact ⟨_, _, _, partitionUsers_eq_of_36 users h''⟩

theorem ringCount_lengths {α : Type} (p : RingPartition α) :
    ringCount p = (if p.core.length = 0 then 0 else 1) + (if p.inner.length = 0 then 0 else 1) +
      (if p.outer.length = 0 then 0 else 1) := by
  obtain ⟨core, inner, outer⟩ := p
  cases core <;> cases inner <;> cases outer <;> simp [ringCount]

/-! ## Claim theorems -/

/-- A fixed roster of `n` pairwise distinct circle users (distinct ids, all
of weight 1), used as concrete partitioner input. -/
def rosterUsers (n : Nat) : List UserInteraction :=
  (List.range n).map fun i =>
    { user := { id := toString i, username := toString i, displayName := toString i,
                avatar := "", verified := false }
      interactions := { replies := 0, incomingReplies := 0, outgoingReplies := 0,
                        quotes := 0, retweets := 0, likes := 0 }
      weight := 1
      lastInteraction := some 0
      interactionHistory := [] }

/-- Claim C1 (amended): for every ranked input list with pairwise distinct
entries, the Radial Partitioner's rings are pairwise disjoint, and for every
input of length at most 47 — i.e. strictly below the configured maximum 48 —
the assignment is also total: the ring sizes sum to the input length and
every user lands in some ring.  (At length exactly 48 the code drops one
user; see the counterexample.) -/
theorem radialPartition_disjoint_total (users : List UserInteraction) (hnd : users.Nodup) :
    ((partitionUsers users).core.Disjoint (partitionUsers users).inner ∧
      (partitionUsers users).core.Disjoint (partitionUsers users).outer ∧
      (partitionUsers users).inner.Disjoint (partitionUsers users).outer) ∧
    (users.length ≤ 47 →
      (partitionUsers users).core.length + (partitionUsers users).inner.length +
          (partitionUsers users).outer.length = users.length ∧
      ∀ u ∈ users, u ∈ (partitionUsers users).core ∨ u ∈ (partitionUsers users).inner ∨
        u ∈ (partitionUsers users).outer) := by
  obtain ⟨a, b, c, hp⟩ := exists_partitionBy users
  have hsnodup : (sortByWeightDesc users).Nodup :=
    ((perm_sortByWeightDesc users).nodup_iff).mpr hnd
  have hconcat := partitionBy_concat (sortByWeightDesc users) a b c
  have hcnd : ((partitionBy (sortByWeightDesc users) a b c).core ++
      ((partitionBy (sortByWeightDesc users) a b c).inner ++
        (partitionBy (sortByWeightDesc users) a b c).outer)).Nodup := by
    rw [hconcat]
    exact hsnodup.sublist (List.take_sublist _ _)
  rw [List.nodup_append] at hcnd
  obtain ⟨-, hio, hci⟩ := hcnd
  rw [List.nodup_append] at hio
  have hsum : users.length ≤ 47 →
      (partitionUsers users).core.length + (partitionUsers users).inner.length +
        (partitionUsers users).outer.length = users.length := by
    intro h47
    rcases Nat.lt_or_ge users.length 6 with h | h
    · rw [partitionUsers_eq_of_small users h, partitionBy_core_length, partitionBy_inner_length,
        partitionBy_outer_length, length_sortByWeightDesc]
      omega
    rcases Nat.lt_or_ge users.length 18 with h' | h'
    · rw [partitionUsers_eq_of_6 users h h', partitionBy_core_length, partitionBy_inner_length,
        partitionBy_outer_length, length_sortByWeightDesc]
      omega
    rcases Nat.lt_or_ge users.length 36 with h'' | h''
    · rw [partitionUsers_eq_of_18 users h' h'', partitionBy_core_length, partitionBy_inner_length,
        partitionBy_outer_length, length_sortByWeightDesc]
      omega
    · rw [partitionUsers_eq_of_36 users h'', partitionBy_core_length, partitionBy_inner_length,
        partitionBy_outer_length, length_sortByWeightDesc]
      omega
  refine ⟨⟨?_, ?_, ?_⟩, fun h47 => ⟨hsum h47, fun u hu => ?_⟩⟩
  · rw [hp]
    exact fun x hx hy => hci hx (List.mem_append.mpr (Or.inl hy))
  · rw [hp]
    exact fun x hx hy => hci hx (List.mem_append.mpr (Or.inr hy))
  · rw [hp]
    exact hio.2.2
  · have husort : u ∈ sortByWeightDesc users := mem_sortByWeightDesc.mpr hu
    have hlen : (partitionBy (sortByWeightDesc users) a b c).core.length +
        ((partitionBy (sortByWeightDesc users) a b c).inner.length +
          (partitionBy (sortByWeightDesc users) a b c).outer.length) =
        (sortByWeightDesc users).length := by
      have := hsum h47
      rw [hp] at this
      rw [length_sortByWeightDesc]
      omega
    have hmem : u ∈ (partitionBy (sortByWeightDesc users) a b c).core ++
        ((partitionBy (sortByWeightDesc users) a b c).inner ++
          (partitionBy (sortByWeightDesc users) a b c).outer) := by
      rw [hconcat, hlen, List.take_length]
      exact husort
    rw [hp]
    rcases List.mem_append.mp hmem with h1 | h1
    · exact Or.inl h1
    · rcases List.mem_append.mp h1 with h2 | h2
      · exact Or.inr (Or.inl h2)
      · exact Or.inr (Or.inr h2)

/-- Claim C1, counterexample: at the configured maximum itself — 48 ranked
users — the three rings hold 7 + 16 + 24 = 47 users: one user is silently
dropped, so the partition is not total. -/
theorem radialPartition_drops_at_48 :
    (rosterUsers 48).length = 48 ∧
    (partitionUsers (rosterUsers 48)).core.length +
        (partitionUsers (rosterUsers 48)).inner.length +
        (partitionUsers (rosterUsers 48)).outer.length = 47 := by
  have hlen : (rosterUsers 48).length = 48 := by
    simp [rosterUsers]
  refine ⟨hlen, ?_⟩
  rw [partitionUsers_eq_of_36 (rosterUsers 48) (by omega), partitionBy_core_length,
    partitionBy_inner_length, partitionBy_outer_length, length_sortByWeightDesc, hlen]
  decide

/-- Claim C1, witness: the theorem applied to a concrete 10-user roster. -/
theorem radialPartition_disjoint_total_witness :
    ((rosterUsers 10).Nodup ∧ (rosterUsers 10).length ≤ 47) ∧
    (partitionUsers (rosterUsers 10)).core.length +
        (partitionUsers (rosterUsers 10)).inner.length +
        (partitionUsers (rosterUsers 10)).outer.length = (rosterUsers 10).length :=
  ⟨⟨by decide, by decide⟩,
    ((radialPartition_disjoint_total (rosterUsers 10) (by decide)).2 (by decide)).1⟩

/-- Claim C2 (amended): the ring structure is determined solely by the
candidate count `n`.  `n ≥ 36`: exactly three rings, core
`max (min 8 ⌊0.15 n⌋) 6`, inner `max (min 16 ⌊0.35 n⌋) 12`, outer the
remainder clipped to 24 and raised to 18 (bounded by what is left).
`18 ≤ n < 36`: exactly two rings, 40 % core clipped to 10, inner the rest.
`6 ≤ n < 18`: exactly one ring holding all candidates, capped at 20.
`1 ≤ n < 6`: one best-effort ring holding all candidates, capped at 12.
`n = 0`: all three rings are empty, i.e. an empty ring set (not one ring, as
claimed; see the counterexample) — and no branch can fail. -/
theorem ringStructure_by_count (users : List UserInteraction) :
    (36 ≤ users.length →
      ringCount (partitionUsers users) = 3 ∧
      (partitionUsers users).core.length = max (min 8 (users.length * 15 / 100)) 6 ∧
      (partitionUsers users).inner.length = max (min 16 (users.length * 35 / 100)) 12 ∧
      (partitionUsers users).outer.length =
        min (max (min 24 (users.length - min 8 (users.length * 15 / 100) -
            min 16 (users.length * 35 / 100))) 18)
          (users.length - (partitionUsers users).core.length -
            (partitionUsers users).inner.length)) ∧
    (18 ≤ users.length → users.length < 36 →
      ringCount (partitionUsers users) = 2 ∧
      (partitionUsers users).core.length = min 10 (users.length * 40 / 100) ∧
      (partitionUsers users).inner.length = users.length - (partitionUsers users).core.length ∧
      (partitionUsers users).outer = []) ∧
    (6 ≤ users.length → users.length < 18 →
      ringCount (partitionUsers users) = 1 ∧
      (partitionUsers users).core.length = min users.length 20 ∧
      (partitionUsers users).core.Perm users ∧
      (partitionUsers users).inner = [] ∧ (partitionUsers users).outer = []) ∧
    (1 ≤ users.length → users.length < 6 →
      ringCount (partitionUsers users) = 1 ∧
      (partitionUsers users).core.length = min users.length 12 ∧
      (partitionUsers users).core.Perm users ∧
      (partitionUsers users).inner = [] ∧ (partitionUsers users).outer = []) ∧
    (users.length = 0 →
      (partitionUsers users).core = [] ∧ (partitionUsers users).inner = [] ∧
      (partitionUsers users).outer = []) := by
  refine ⟨fun h36 => ?_, fun h18 h36 => ?_, fun h6 h18 => ?_, fun h1 h6 => ?_, fun h0 => ?_⟩
  · rw [partitionUsers_eq_of_36 users h36, ringCount_lengths, partitionBy_core_length,
      partitionBy_inner_length, partitionBy_outer_length, length_sortByWeightDesc]
    refine ⟨?_, by omega, by omega, by omega⟩
    rw [if_neg (by omega), if_neg (by omega), if_neg (by omega)]
  · rw [partitionUsers_eq_of_18 users h18 h36, ringCount_lengths, partitionBy_core_length,
      partitionBy_inner_length, partitionBy_outer_length, length_sortByWeightDesc]
    refine ⟨?_, by omega, by omega, ?_⟩
    · rw [if_neg (by omega), if_neg (by omega), if_pos (by omega)]
    · rw [partitionBy_outer]
      simp
  · rw [partitionUsers_eq_of_6 users h6 h18, ringCount_lengths, partitionBy_core_length,
      partitionBy_inner_length, partitionBy_outer_length, length_sortByWeightDesc]
    refine ⟨?_, by omega, ?_, ?_, ?_⟩
    · rw [if_neg (by omega), if_pos (by omega), if_pos (by omega)]
    · rw [partitionBy_core, show min users.length 20 = users.length from by omega,
        ← length_sortByWeightDesc users, List.take_length]
      exact perm_sortByWeightDesc users
    · rw [partitionBy_inner]
      simp
    · rw [partitionBy_outer]
      simp
  · rw [partitionUsers_eq_of_small users (by omega), ringCount_lengths, partitionBy_core_length,
      partitionBy_inner_length, partitionBy_outer_length, length_sortByWeightDesc]
    refine ⟨?_, by omega, ?_, ?_, ?_⟩
    · rw [if_neg (by omega), if_pos (by omega), if_pos (by omega)]
    · rw [partitionBy_core, show min users.length 12 = users.length from by omega,
        ← length_sortByWeightDesc users, List.take_length]
      exact perm_sortByWeightDesc users
    · rw [partitionBy_inner]
      simp
    · rw [partitionBy_outer]
      simp
  · rw [partitionUsers_eq_of_small users (by omega)]
    refine ⟨?_, ?_, ?_⟩
    · rw [partitionBy_core]
      have : min users.length 12 = 0 := by omega
      rw [this]
      simp
    · rw [partitionBy_inner]
      simp
    · rw [partitionBy_outer]
      simp

/-- Claim C2, counterexample: with zero candidates the partitioner produces
an empty ring set — zero rings, not the single best-effort ring the claim
asserts for every `n < 6`. -/
theorem ringStructure_empty_input :
    ringCount (partitionUsers ([] : List UserInteraction)) = 0 := by
  rw [partitionUsers_eq_of_small [] (by simp), ringCount_lengths, partitionBy_core_length,
    partitionBy_inner_length, partitionBy_outer_length, length_sortByWeightDesc]
  simp

/-- Claim C2, witness: the theorem applied to 40 ranked candidates yields
exactly three rings (the specification's Scenario C). -/
theorem ringStructure_by_count_witness :
    36 ≤ (rosterUsers 40).length ∧ ringCount (partitionUsers (rosterUsers 40)) = 3 :=
  ⟨by decide, ((ringStructure_by_count (rosterUsers 40)).1 (by decide)).1⟩

theorem localeCompareBase_neg_iff (x y : String) :
    localeCompareBase x y < 0 ↔ compare x.toLower y.toLower = Ordering.lt := by
  unfold localeCompareBase
  cases hc : compare x.toLower y.toLower <;> norm_num
  all_goals decide

/-- Claim C3 (amended): the Rank Selector's comparator applies the tie-break
chain in this exact order — higher score first; on equal score, the more
recent `lastInteraction` timestamp first; on equal timestamps, higher raw
interaction weight first; finally case-insensitive name order — so the
result is deterministic.  An unknown or never-interacted timestamp sorts as
the epoch (timestamp key 0), not as earliest: a candidate whose last
interaction parsed to a pre-1970 (negative) timestamp sorts before it (see
the counterexample). -/
theorem compareNodes_chain :
    (∀ (metricsCache : JsMap NodeSortMetrics) (a b : TreeNode)
        (metricsA metricsB : NodeSortMetrics),
      mapLookup metricsCache a.id = some metricsA →
      mapLookup metricsCache b.id = some metricsB →
      (compareNodes metricsCache a b < 0 ↔
        (metricsB.totalScore < metricsA.totalScore ∨
         (metricsA.totalScore = metricsB.totalScore ∧
           metricsB.lastInteractionTimestamp < metricsA.lastInteractionTimestamp) ∨
         (metricsA.totalScore = metricsB.totalScore ∧
           metricsA.lastInteractionTimestamp = metricsB.lastInteractionTimestamp ∧
           metricsB.interactionWeight < metricsA.interactionWeight) ∨
         (metricsA.totalScore = metricsB.totalScore ∧
           metricsA.lastInteractionTimestamp = metricsB.lastInteractionTimestamp ∧
           metricsA.interactionWeight = metricsB.interactionWeight ∧
           compare a.name.toLower b.name.toLower = Ordering.lt)))) ∧
    (∀ relationship, (computeMetrics relationship none).lastInteractionTimestamp = 0) ∧
    (∀ relationship interaction,
      (computeMetrics relationship (some interaction)).lastInteractionTimestamp =
        interaction.lastInteraction.getD 0) := by
  refine ⟨fun cache a b ma mb h₁ h₂ => ?_, fun rel => rfl, fun rel i => rfl⟩
  simp only [compareNodes, h₁, h₂]
  by_cases hs : ma.totalScore = mb.totalScore
  · rw [if_neg (not_not_intro hs)]
    by_cases ht : ma.lastInteractionTimestamp = mb.lastInteractionTimestamp
    · rw [if_neg (not_not_intro ht)]
      by_cases hw : ma.interactionWeight = mb.interactionWeight
      · rw [if_neg (not_not_intro hw), localeCompareBase_neg_iff]
        constructor
        · intro hcmp
          exact Or.inr (Or.inr (Or.inr ⟨hs, ht, hw, hcmp⟩))
        · rintro (h | ⟨-, h⟩ | ⟨-, -, h⟩ | ⟨-, -, -, h⟩)
          · exact absurd (hs ▸ h) (lt_irrefl _)
          · exact absurd (ht ▸ h) (lt_irrefl _)
          · exact absurd (hw ▸ h) (lt_irrefl _)
          · exact h
      · rw [if_pos hw, sub_neg]
        constructor
        · intro h
          exact Or.inr (Or.inr (Or.inl ⟨hs, ht, h⟩))
        · rintro (h | ⟨-, h⟩ | ⟨-, -, h⟩ | ⟨-, -, hweq, -⟩)
          · exact absurd (hs ▸ h) (lt_irrefl _)
          · exact absurd (ht ▸ h) (lt_irrefl _)
          · exact h
          · exact absurd hweq hw
    · rw [if_pos ht, Int.cast_lt_zero, sub_neg]
      constructor
      · intro h
        exact Or.inr (Or.inl ⟨hs, h⟩)
      · rintro (h | ⟨-, h⟩ | ⟨-, hteq, -⟩ | ⟨-, hteq, -, -⟩)
        · exact absurd (hs ▸ h) (lt_irrefl _)
        · exact h
        · exact absurd hteq ht
        · exact absurd hteq ht
  · rw [if_pos hs, sub_neg]
    constructor
    · intro h
      exact Or.inl h
    · rintro (h | ⟨hseq, -⟩ | ⟨hseq, -, -⟩ | ⟨hseq, -, -, -⟩)
      · exact h
      · exact absurd hseq hs
      · exact absurd hseq hs
      · exact absurd hseq hs

/-- Mutual, unverified relationship records used in the comparator examples. -/
def tieUserA : TwitterUser :=
  { id := "a", username := "a", displayName := "Alice", avatar := "", verified := false }

/-- Second concrete user for the comparator examples. -/
def tieUserB : TwitterUser :=
  { id := "b", username := "b", displayName := "Bob", avatar := "", verified := false }

/-- A bucket whose last interaction parsed to one day before the epoch
(a pre-1970 timestamp), with weight 0. -/
def tieInteractionA : UserInteraction :=
  { user := tieUserA
    interactions := { replies := 0, incomingReplies := 0, outgoingReplies := 0,
                      quotes := 0, retweets := 0, likes := 0 }
    weight := 0
    lastInteraction := some (-86400000)
    interactionHistory := [] }

/-- Mutual relationship record for candidate `a`. -/
def tieRelA : UserRelationship :=
  { user := tieUserA, isFollowing := true, isFollower := true, isMutual := true }

/-- Mutual relationship record for candidate `b`. -/
def tieRelB : UserRelationship :=
  { user := tieUserB, isFollowing := true, isFollower := true, isMutual := true }

/-- Tree node for candidate `a`. -/
def tieNodeA : TreeNode := { id := "a", name := "Alice" }

/-- Tree node for candidate `b`. -/
def tieNodeB : TreeNode := { id := "b", name := "Bob" }

/-- Metrics cache holding candidate `a` (pre-1970 interaction) and candidate
`b` (no interaction record at all), both mutual and unverified, so their
scores tie. -/
def tieCache : JsMap NodeSortMetrics :=
  [("a", computeMetrics tieRelA (some tieInteractionA)),
   ("b", computeMetrics tieRelB none)]

/-- Claim C3, counterexample: scores tie, candidate `b` never interacted (its
timestamp key is the epoch 0), candidate `a` interacted before 1970 — and
the comparator ranks `b` strictly before `a` (positive comparator value),
so an unknown timestamp does not sort as earliest. -/
theorem compareNodes_unknown_not_earliest :
    (computeMetrics tieRelA (some tieInteractionA)).totalScore =
      (computeMetrics tieRelB none).totalScore ∧
    0 < compareNodes tieCache tieNodeA tieNodeB := by
  constructor
  · rfl
  · norm_num [compareNodes, tieCache, tieNodeA, tieNodeB, tieRelA, tieRelB,
      tieUserA, tieUserB, tieInteractionA, computeMetrics, mapLookup,
      (show ¬ ("a" : String) = ("b" : String) by decide)]

/-- Metrics pair with distinct scores for the comparator witness. -/
def chainMetricsA : NodeSortMetrics :=
  { totalScore := 1, relationPriority := 0, interactionWeight := 0,
    lastInteractionTimestamp := 0, verifiedBonus := 0 }

/-- Second metrics record for the comparator witness. -/
def chainMetricsB : NodeSortMetrics :=
  { totalScore := 0, relationPriority := 0, interactionWeight := 0,
    lastInteractionTimestamp := 0, verifiedBonus := 0 }

/-- Cache for the comparator witness. -/
def chainCache : JsMap NodeSortMetrics :=
  [("a", chainMetricsA), ("b", chainMetricsB)]

/-- Tree node for the comparator witness, candidate `a`. -/
def chainNodeA : TreeNode := { id := "a", name := "A" }

/-- Tree node for the comparator witness, candidate `b`. -/
def chainNodeB : TreeNode := { id := "b", name := "B" }

/-- Claim C3, witness: the chain theorem applied to a concrete cache where
candidate `a` has the higher score, so the comparator ranks it first. -/
theorem compareNodes_chain_witness :
    mapLookup chainCache "a" = some chainMetricsA ∧
    mapLookup chainCache "b" = some chainMetricsB ∧
    compareNodes chainCache chainNodeA chainNodeB < 0 :=
  ⟨rfl, rfl,
    (compareNodes_chain.1 chainCache chainNodeA chainNodeB chainMetricsA chainMetricsB
        rfl rfl).mpr
      (Or.inl (by norm_num [chainMetricsA, chainMetricsB]))⟩

/-- Claim C4: the Rank Selector's score is
relationClassPriority × 50 + weight + (verified ? 10 : 0), with priorities
3 / 2 / 1 / 0 for mutual / following-only / follower-only / none, and a
missing interaction record contributing weight 0 (`scoreSpec` spells out the
specification's formula verbatim). -/
theorem score_formula (relationship : UserRelationship) (interaction : Option UserInteraction) :
    (computeMetrics relationship interaction).totalScore = scoreSpec relationship interaction ∧
    (computeMetrics relationship none).interactionWeight = 0 := by
  constructor
  · cases interaction <;> simp [computeMetrics, scoreSpec]
  · simp [computeMetrics]

/-- A patch with an invalid (negative) reply coefficient and a negative
decay constant. -/
def invalidWeightPatch : WeightConfigPatch :=
  { reply := some (-1), quote := none, retweet := none, like := none,
    timeDecayFactor := some (-1) }

/-- The configuration the constructor actually produces from
`invalidWeightPatch`. -/
def invalidMergedConfig : WeightConfig :=
  { reply := -1
    quote := 5/2
    retweet := 3/2
    like := 1/2
    timeDecayFactor := -1 }

/-- Claim C6, counterexample: constructing the calculator with an invalid
configuration — negative reply coefficient and negative decay constant —
does not raise a `ConfigurationError`: the constructor succeeds and returns
the merged configuration. -/
theorem constructor_accepts_invalid :
    mkInteractionCalculatorConfig (some invalidWeightPatch) =
      Except.ok invalidMergedConfig := rfl

/-- Claim C6 (amended): construction never raises, for any configuration:
the partial configuration — valid or not — is merged field by field over the
defaults and accepted; there is no validation at construction time or
later. -/
theorem constructor_never_fails :
    (∀ patch : WeightConfigPatch, ∃ cfg,
      mkInteractionCalculatorConfig (some patch) = Except.ok cfg ∧
      cfg.reply = patch.reply.getD defaultWeightConfig.reply ∧
      cfg.quote = patch.quote.getD defaultWeightConfig.quote ∧
      cfg.retweet = patch.retweet.getD defaultWeightConfig.retweet ∧
      cfg.like = patch.like.getD defaultWeightConfig.like ∧
      cfg.timeDecayFactor = patch.timeDecayFactor.getD defaultWeightConfig.timeDecayFactor) ∧
    mkInteractionCalculatorConfig none = Except.ok defaultWeightConfig :=
  ⟨fun patch => ⟨mergeWeightConfig defaultWeightConfig patch, rfl, rfl, rfl, rfl, rfl, rfl⟩, rfl⟩

/-- Claim C8: for every configuration with non-negative interaction
coefficients, every counter block, every (parsed) last-interaction timestamp
and every injected now, the computed weight — coefficient-weighted counter
sum times `exp (-decay × daysSince)` — is non-negative. -/
theorem weight_nonneg (config : WeightConfig) (hr : 0 ≤ config.reply) (hq : 0 ≤ config.quote)
    (hrt : 0 ≤ config.retweet) (hl : 0 ≤ config.like) (counts : InteractionCounts)
    (lastInteractionTs now : Int) :
    0 ≤ calculateWeight config counts lastInteractionTs now := by
  have h1 : (0:ℝ) ≤ (config.reply : ℝ) := by exact_mod_cast hr
  have h2 : (0:ℝ) ≤ (config.quote : ℝ) := by exact_mod_cast hq
  have h3 : (0:ℝ) ≤ (config.retweet : ℝ) := by exact_mod_cast hrt
  have h4 : (0:ℝ) ≤ (config.like : ℝ) := by exact_mod_cast hl
  have hbase : (0:ℝ) ≤ (counts.replies : ℝ) * (config.reply : ℝ) +
      (counts.quotes : ℝ) * (config.quote : ℝ) + (counts.retweets : ℝ) * (config.retweet : ℝ) +
      (counts.likes : ℝ) * (config.like : ℝ) :=
    add_nonneg (add_nonneg (add_nonneg (mul_nonneg (Nat.cast_nonneg _) h1)
      (mul_nonneg (Nat.cast_nonneg _) h2)) (mul_nonneg (Nat.cast_nonneg _) h3))
      (mul_nonneg (Nat.cast_nonneg _) h4)
  unfold calculateWeight
  exact mul_nonneg hbase (Real.exp_pos _).le

/-- Counter block used by the weight witness (2 replies, 3 likes). -/
def scenarioCounts : InteractionCounts :=
  { replies := 2
    incomingReplies := 1
    outgoingReplies := 1
    quotes := 0
    retweets := 0
    likes := 3 }

/-- Claim C8, witness: the theorem applied to the default configuration, a
concrete counter block and `now` equal to the last interaction. -/
theorem weight_nonneg_witness :
    (0 ≤ defaultWeightConfig.reply ∧ 0 ≤ defaultWeightConfig.quote ∧
      0 ≤ defaultWeightConfig.retweet ∧ 0 ≤ defaultWeightConfig.like) ∧
    0 ≤ calculateWeight defaultWeightConfig scenarioCounts 0 0 :=
  ⟨⟨by norm_num [defaultWeightConfig], by norm_num [defaultWeightConfig],
    by norm_num [defaultWeightConfig], by norm_num [defaultWeightConfig]⟩,
   weight_nonneg defaultWeightConfig (by norm_num [defaultWeightConfig])
     (by norm_num [defaultWeightConfig]) (by norm_num [defaultWeightConfig])
     (by norm_num [defaultWeightConfig]) scenarioCounts 0 0⟩

/-- Claim C10: every user in the circle-data output has strictly positive
weight, and a counterpart whose weight is exactly zero is excluded for every
limit — even when the selection limit is not reached. -/
theorem circle_users_positive_weight (userInteractions : JsMap UserInteraction)
    (currentUser : TwitterUser) (limit : Nat) :
    (∀ u ∈ (generateCircleData userInteractions currentUser limit).users, 0 < u.weight) ∧
    (∀ u ∈ mapValues userInteractions, u.weight = 0 →
      u ∉ (generateCircleData userInteractions currentUser limit).users) := by
  have hmem : ∀ u ∈ (generateCircleData userInteractions currentUser limit).users,
      0 < u.weight := by
    intro u hu
    simp only [generateCircleData] at hu
    have h1 := List.mem_of_mem_take hu
    have h2 := mem_sortByWeightDesc.mp h1
    have h3 := List.mem_of_mem_filter h2
    have h4 := List.of_mem_filter h3
    exact of_decide_eq_true h4
  refine ⟨hmem, fun u hv hw hmem' => ?_⟩
  have := hmem u hmem'
  rw [hw] at this
  exact lt_irrefl 0 this

/-- The analyzed account used in the circle-data witness. -/
def circleSelf : TwitterUser :=
  { id := "me", username := "me", displayName := "Me", avatar := "", verified := false }

/-- A counterpart with strictly positive weight. -/
def circleUserPos : UserInteraction :=
  { user := { id := "p", username := "p", displayName := "P", avatar := "", verified := false }
    interactions := { replies := 1, incomingReplies := 1, outgoingReplies := 0,
                      quotes := 0, retweets := 0, likes := 0 }
    weight := 1
    lastInteraction := some 0
    interactionHistory := [] }

/-- A counterpart whose computed weight is exactly zero. -/
def circleUserZero : UserInteraction :=
  { user := { id := "z", username := "z", displayName := "Z", avatar := "", verified := false }
    interactions := { replies := 0, incomingReplies := 0, outgoingReplies := 0,
                      quotes := 0, retweets := 0, likes := 1 }
    weight := 0
    lastInteraction := some 0
    interactionHistory := [] }

/-- A two-counterpart aggregation map: one positive weight, one zero weight. -/
def circleMap : JsMap UserInteraction :=
  [("p", circleUserPos), ("z", circleUserZero)]

unseal List.merge List.mergeSort in
/-- Claim C10, witness: the theorem applied to the concrete two-user map with
limit 48 (not reached): the positive-weight user is in the output with
positive weight, and the zero-weight user is excluded. -/
theorem circle_users_positive_weight_witness :
    (circleUserPos ∈ (generateCircleData circleMap circleSelf 48).users ∧
      0 < circleUserPos.weight) ∧
    (circleUserZero ∈ mapValues circleMap ∧ circleUserZero.weight = 0 ∧
      circleUserZero ∉ (generateCircleData circleMap circleSelf 48).users) :=
  ⟨⟨by decide, (circle_users_positive_weight circleMap circleSelf 48).1 circleUserPos (by decide)⟩,
   ⟨by decide, rfl,
    (circle_users_positive_weight circleMap circleSelf 48).2 circleUserZero (by decide) rfl⟩⟩

/-- The bucket state after `recordInteraction` attributes an event whose
timestamp comparison fails (so `lastInteraction` is left as is). -/
def bucketAfterEvent (userMap : JsMap UserInteraction) (interactingUser : TwitterUser)
    (event : InteractionEvent) : UserInteraction :=
  let g := getOrCreateUserInteraction userMap interactingUser.id interactingUser
  { user := interactingUser
    interactions := bumpCounts g.interactions event.type event.direction
    weight := g.weight
    lastInteraction := g.lastInteraction
    interactionHistory := g.interactionHistory ++ [event] }

/-- Claim C5 (amended): an event with a malformed (unparseable) timestamp
never aborts the batch — `recordInteraction` is total and every other
counterpart's bucket is untouched — but the event is not skipped: it still
updates the counterpart's counters and history; only
`lastInteractionTimestamp` is left unchanged. -/
theorem malformed_timestamp_event (userMap : JsMap UserInteraction)
    (interactingUser currentUser : TwitterUser) (event : InteractionEvent)
    (hts : event.timestamp = none) (hid : interactingUser.id ≠ currentUser.id) :
    mapLookup (recordInteraction userMap interactingUser currentUser event)
        interactingUser.id = some (bucketAfterEvent userMap interactingUser event) ∧
    (bucketAfterEvent userMap interactingUser event).lastInteraction =
      (getOrCreateUserInteraction userMap interactingUser.id interactingUser).lastInteraction ∧
    (bucketAfterEvent userMap interactingUser event).interactionHistory =
      (getOrCreateUserInteraction userMap interactingUser.id
        interactingUser).interactionHistory ++ [event] ∧
    (bucketAfterEvent userMap interactingUser event).interactions =
      bumpCounts (getOrCreateUserInteraction userMap interactingUser.id
        interactingUser).interactions event.type event.direction ∧
    ∀ k, k ≠ interactingUser.id →
      mapLookup (recordInteraction userMap interactingUser currentUser event) k =
        mapLookup userMap k := by
  have hrec : recordInteraction userMap interactingUser currentUser event =
      mapSet userMap interactingUser.id (bucketAfterEvent userMap interactingUser event) := by
    unfold recordInteraction bucketAfterEvent
    rw [if_neg hid, hts]
    rfl
  refine ⟨?_, rfl, rfl, rfl, fun k hk => ?_⟩
  · rw [hrec, mapLookup_mapSet, if_pos rfl]
  · rw [hrec, mapLookup_mapSet, if_neg (fun h => hk h.symm)]

/-- A reply event whose timestamp string failed to parse. -/
def badEvent : InteractionEvent :=
  { type := .reply, direction := .incoming, timestamp := none, tweetId := "t1" }

/-- Claim C5, counterexample: recording a malformed-timestamp reply from user
`p` (against analyzed account `me`) on an empty map does not skip the event:
the bucket created for `p` counts 1 reply and 1 history entry (only the
last-interaction timestamp stays at its epoch initial value). -/
theorem malformed_event_not_skipped :
    (mapLookup (recordInteraction [] circleUserPos.user circleSelf badEvent) "p").map
        (fun b => (b.interactions.replies, b.interactionHistory.length, b.lastInteraction)) =
      some (1, 1, some 0) := by decide

/-- Claim C5, witness: the amended theorem applied to the concrete
malformed-timestamp event. -/
theorem malformed_timestamp_event_witness :
    badEvent.timestamp = none ∧ circleUserPos.user.id ≠ circleSelf.id ∧
    mapLookup (recordInteraction [] circleUserPos.user circleSelf badEvent)
        circleUserPos.user.id = some (bucketAfterEvent [] circleUserPos.user badEvent) :=
  ⟨rfl, by decide,
   (malformed_timestamp_event [] circleUserPos.user circleSelf badEvent rfl (by decide)).1⟩

theorem recordInteraction_preserves_none (m : JsMap UserInteraction)
    (interactingUser currentUser : TwitterUser) (event : InteractionEvent)
    (h : mapLookup m currentUser.id = none) :
    mapLookup (recordInteraction m interactingUser currentUser event) currentUser.id = none := by
  unfold recordInteraction
  split_ifs with hid
  · exact h
  · simp only [mapLookup_mapSet]
    rw [if_neg hid]
    exact h

theorem parseInteractions_self_none (replies : List TwitterTweet) (likes : List TwitterLike)
    (currentUser : TwitterUser) :
    mapLookup (parseInteractions replies likes currentUser) currentUser.id = none := by
  unfold parseInteractions
  apply foldl_invariant (fun m => mapLookup m currentUser.id = none)
  · apply foldl_invariant (fun m => mapLookup m currentUser.id = none)
    · rfl
    · intro m tweet hm
      obtain ⟨tid, ttext, tauthor, tcreated, ttype, treply⟩ := tweet
      cases ttype <;> cases treply <;> dsimp only <;>
        first
          | exact hm
          | exact recordInteraction_preserves_none _ _ _ _ hm
          | (split_ifs <;>
              first
                | exact hm
                | exact recordInteraction_preserves_none _ _ _ _ hm)
  · intro m like hm
    exact recordInteraction_preserves_none m _ currentUser _ hm

/-- Claim C7: the analyzed account's own identity never appears in the
Aggregator's output map (self-authored replies, quotes and likes attribute
nothing to it), never appears among the circle users the Rank Selector
emits, and never appears in any of the Radial Partitioner's rings. -/
theorem self_never_appears (replies : List TwitterTweet) (likes : List TwitterLike)
    (userInteractions : JsMap UserInteraction) (currentUser : TwitterUser) (limit : Nat) :
    mapLookup (parseInteractions replies likes currentUser) currentUser.id = none ∧
    (∀ u ∈ (generateCircleData userInteractions currentUser limit).users,
      u.user.id ≠ currentUser.id) ∧
    ∀ u, (u ∈ (partitionUsers (generateCircleData userInteractions currentUser limit).users).core ∨
          u ∈ (partitionUsers (generateCircleData userInteractions currentUser limit).users).inner ∨
          u ∈ (partitionUsers (generateCircleData userInteractions currentUser limit).users).outer) →
      u.user.id ≠ currentUser.id := by
  have hcircle : ∀ u ∈ (generateCircleData userInteractions currentUser limit).users,
      u.user.id ≠ currentUser.id := by
    intro u hu
    simp only [generateCircleData] at hu
    have h1 := List.mem_of_mem_take hu
    have h2 := mem_sortByWeightDesc.mp h1
    have h3 := List.of_mem_filter h2
    exact of_decide_eq_true h3
  refine ⟨parseInteractions_self_none replies likes currentUser, hcircle, fun u hu => ?_⟩
  obtain ⟨a, b, c, hp⟩ :=
    exists_partitionBy (generateCircleData userInteractions currentUser limit).users
  rw [hp] at hu
  exact hcircle u (mem_sortByWeightDesc.mp (mem_partitionBy hu))

/-- A reply authored by user `a` whose reply target is the analyzed
account. -/
def selfReplyTweet : TwitterTweet :=
  { id := "t9", text := "hello", author := tieUserA, createdAt := some 5,
    type := .reply, replyTo := some circleSelf }

unseal List.merge List.mergeSort in
/-- Claim C7, witness: the theorem applied to one concrete reply batch and
the concrete two-counterpart circle map. -/
theorem self_never_appears_witness :
    mapLookup (parseInteractions [selfReplyTweet] [] circleSelf) circleSelf.id = none ∧
    circleUserPos ∈ (generateCircleData circleMap circleSelf 48).users ∧
    circleUserPos ∈ (partitionUsers (generateCircleData circleMap circleSelf 48).users).core ∧
    circleUserPos.user.id ≠ circleSelf.id :=
  ⟨(self_never_appears [selfReplyTweet] [] circleMap circleSelf 48).1,
   by decide, by decide,
   (self_never_appears [selfReplyTweet] [] circleMap circleSelf 48).2.2 circleUserPos
     (Or.inl (by decide))⟩

theorem followingStep_lookup_not_mem :
    ∀ (l : List TwitterUser) (followerIds : List String) (m : JsMap UserRelationship)
      (k : String), (∀ u ∈ l, u.id ≠ k) →
      mapLookup (l.foldl (followingStep followerIds) m) k = mapLookup m k := by
  intro l followerIds
  induction l with
  | nil => intro m k _; rfl
  | cons a l ih =>
    intro m k hnot
    rw [List.foldl_cons, ih _ k (fun u hu => hnot u (List.mem_cons_of_mem a hu))]
    unfold followingStep
    rw [mapLookup_mapSet, if_neg (hnot a (List.mem_cons_self a l))]

theorem followingStep_lookup_mem :
    ∀ (l : List TwitterUser) (followerIds : List String) (m : JsMap UserRelationship)
      (k : String), (∃ u ∈ l, u.id = k) →
      ∃ u, u ∈ l ∧ u.id = k ∧
        mapLookup (l.foldl (followingStep followerIds) m) k =
          some { user := u, isFollowing := true, isFollower := decide (k ∈ followerIds),
                 isMutual := decide (k ∈ followerIds) } := by
  intro l followerIds
  induction l with
  | nil =>
    intro m k hex
    exact absurd hex (by simp)
  | cons a l ih =>
    intro m k hex
    by_cases hl : ∃ u ∈ l, u.id = k
    · obtain ⟨u, hu, huid, hlook⟩ := ih (followingStep followerIds m a) k hl
      exact ⟨u, List.mem_cons_of_mem a hu, huid, hlook⟩
    · have hak : a.id = k := by
        rcases hex with ⟨u, hu, huid⟩
        rcases List.mem_cons.mp hu with rfl | hu'
        · exact huid
        · exact absurd ⟨u, hu', huid⟩ hl
      subst hak
      have hnot : ∀ u ∈ l, u.id ≠ a.id := fun u hu huid => hl ⟨u, hu, huid⟩
      refine ⟨a, List.mem_cons_self a l, rfl, ?_⟩
      rw [List.foldl_cons, followingStep_lookup_not_mem l followerIds _ a.id hnot]
      unfold followingStep
      rw [mapLookup_mapSet, if_pos rfl]

theorem followersStep_lookup_preserved :
    ∀ (l : List TwitterUser) (m : JsMap UserRelationship) (k : String)
      (r : UserRelationship), mapLookup m k = some r →
      mapLookup (l.foldl followersStep m) k = some r := by
  intro l
  induction l with
  | nil => intro m k r h; exact h
  | cons a l ih =>
    intro m k r h
    rw [List.foldl_cons]
    apply ih
    unfold followersStep
    by_cases hhas : mapHas m a.id
    · rw [if_pos hhas]
      exact h
    · have hak : a.id ≠ k := by
        intro hak
        apply hhas
        unfold mapHas
        rw [hak, h]
        rfl
      rw [if_neg hhas, mapLookup_mapSet, if_neg hak]
      exact h

theorem followersStep_lookup_new :
    ∀ (l : List TwitterUser) (m : JsMap UserRelationship) (k : String),
      mapLookup m k = none → (∃ u ∈ l, u.id = k) →
      ∃ u, u ∈ l ∧ u.id = k ∧
        mapLookup (l.foldl followersStep m) k =
          some { user := u, isFollowing := false, isFollower := true, isMutual := false } := by
  intro l
  induction l with
  | nil =>
    intro m k _ hex
    exact absurd hex (by simp)
  | cons a l ih =>
    intro m k hnone hex
    by_cases hak : a.id = k
    · subst hak
      have hhas : ¬mapHas m a.id = true := by
        unfold mapHas
        rw [hnone]
        simp
      refine ⟨a, List.mem_cons_self a l, rfl, ?_⟩
      rw [List.foldl_cons]
      apply followersStep_lookup_preserved
      unfold followersStep
      rw [if_neg hhas, mapLookup_mapSet, if_pos rfl]
    · have hstep : mapLookup (followersStep m a) k = none := by
        unfold followersStep
        by_cases hhas : mapHas m a.id
        · rw [if_pos hhas]
          exact hnone
        · rw [if_neg hhas, mapLookup_mapSet, if_neg hak]
          exact hnone
      have hex' : ∃ u ∈ l, u.id = k := by
        rcases hex with ⟨u, hu, huid⟩
        rcases List.mem_cons.mp hu with rfl | hu'
        · exact absurd huid hak
        · exact ⟨u, hu', huid⟩
      obtain ⟨u, hu, huid, hlook⟩ := ih (followersStep m a) k hstep hex'
      refine ⟨u, List.mem_cons_of_mem a hu, huid, ?_⟩
      rw [List.foldl_cons]
      exact hlook

theorem followersStep_lookup_none :
    ∀ (l : List TwitterUser) (m : JsMap UserRelationship) (k : String),
      mapLookup m k = none → (∀ u ∈ l, u.id ≠ k) →
      mapLookup (l.foldl followersStep m) k = none := by
  intro l
  induction l with
  | nil => intro m k h _; exact h
  | cons a l ih =>
    intro m k hnone hnot
    rw [List.foldl_cons]
    apply ih _ k _ (fun u hu => hnot u (List.mem_cons_of_mem a hu))
    unfold followersStep
    by_cases hhas : mapHas m a.id
    · rw [if_pos hhas]
      exact hnone
    · rw [if_neg hhas, mapLookup_mapSet, if_neg (hnot a (List.mem_cons_self a l))]
      exact hnone

theorem nodup_keys_buildRelationships (following followers : List TwitterUser) :
    (mapKeys (buildRelationships following followers)).Nodup := by
  unfold buildRelationships
  apply foldl_invariant (fun m => (mapKeys m).Nodup)
  · apply foldl_invariant (fun m => (mapKeys m).Nodup)
    · exact List.nodup_nil
    · intro b a hb
      exact nodup_mapKeys_mapSet b a.id _ hb
  · intro b a hb
    unfold followersStep
    split_ifs
    · exact hb
    · exact nodup_mapKeys_mapSet b a.id _ hb

/-- Claim C9: the classifier emits exactly one record per identity appearing
in either set (keys are unique, and a key is absent exactly when the
identity appears in neither list); an identity in both sets gets
`isFollowing`, `isFollower` and `isMutual` all true; an identity in exactly
one set gets exactly the corresponding flag true with `isMutual` false —
`isMutual` always coincides with `isFollowing && isFollower`. -/
theorem classifier_one_record_per_identity (following followers : List TwitterUser)
    (k : String) :
    (mapKeys (buildRelationships following followers)).Nodup ∧
    (mapLookup (buildRelationships following followers) k = none ↔
      (∀ u ∈ following, u.id ≠ k) ∧ (∀ u ∈ followers, u.id ≠ k)) ∧
    ∀ r, mapLookup (buildRelationships following followers) k = some r →
      ((r.isFollowing = true ↔ ∃ u ∈ following, u.id = k) ∧
       (r.isFollower = true ↔ ∃ u ∈ followers, u.id = k) ∧
       r.isMutual = (r.isFollowing && r.isFollower)) := by
  refine ⟨nodup_keys_buildRelationships following followers, ?_⟩
  have hfid : k ∈ followers.map (·.id) ↔ ∃ u ∈ followers, u.id = k := List.mem_map
  unfold buildRelationships
  by_cases hf : ∃ u ∈ following, u.id = k
  · obtain ⟨u, hu, huid, hlook⟩ :=
      followingStep_lookup_mem following (followers.map (·.id)) [] k hf
    have hfinal := followersStep_lookup_preserved followers _ k _ hlook
    constructor
    · rw [hfinal]
      constructor
      · intro h
        exact absurd h (by simp)
      · rintro ⟨h1, -⟩
        exact absurd huid (h1 u hu)
    · intro r hr
      rw [hfinal] at hr
      injection hr with hr
      subst hr
      refine ⟨⟨fun _ => ⟨u, hu, huid⟩, fun _ => rfl⟩, ?_, ?_⟩
      · constructor
        · intro h
          exact hfid.mp (of_decide_eq_true h)
        · intro h
          exact decide_eq_true (hfid.mpr h)
      · simp
  · have hnotf : ∀ u ∈ following, u.id ≠ k := fun u hu huid => hf ⟨u, hu, huid⟩
    have hphase1 :
        mapLookup (following.foldl (followingStep (followers.map (·.id))) []) k = none := by
      rw [followingStep_lookup_not_mem following _ [] k hnotf]
      rfl
    by_cases hg : ∃ u ∈ followers, u.id = k
    · obtain ⟨u, hu, huid, hlook⟩ := followersStep_lookup_new followers _ k hphase1 hg
      constructor
      · rw [hlook]
        constructor
        · intro h
          exact absurd h (by simp)
        · rintro ⟨-, h2⟩
          exact absurd huid (h2 u hu)
      · intro r hr
        rw [hlook] at hr
        injection hr with hr
        subst hr
        refine ⟨⟨fun h => absurd h (by simp), fun h => absurd h hf⟩,
          ⟨fun _ => ⟨u, hu, huid⟩, fun _ => rfl⟩, rfl⟩
    · have hnotg : ∀ u ∈ followers, u.id ≠ k := fun u hu huid => hg ⟨u, hu, huid⟩
      have hfinal := followersStep_lookup_none followers _ k hphase1 hnotg
      constructor
      · rw [hfinal]
        exact ⟨fun _ => ⟨hnotf, hnotg⟩, fun _ => rfl⟩
      · intro r hr
        rw [hfinal] at hr
        exact absurd hr (by simp)

/-- Identity `A` of the specification's Scenario B. -/
def scUserA : TwitterUser :=
  { id := "A", username := "a", displayName := "A", avatar := "", verified := false }

/-- Identity `B` of the specification's Scenario B. -/
def scUserB : TwitterUser :=
  { id := "B", username := "b", displayName := "B", avatar := "", verified := false }

/-- Identity `C` of the specification's Scenario B. -/
def scUserC : TwitterUser :=
  { id := "C", username := "c", displayName := "C", avatar := "", verified := false }

/-- The record the classifier produces for the mutual identity `B`. -/
def scRecordB : UserRelationship :=
  { user := scUserB, isFollowing := true, isFollower := true, isMutual := true }

/-- Claim C9, witness: the theorem applied to Scenario B
(`following = [A, B]`, `followers = [B, C]`) at the mutual identity `B`. -/
theorem classifier_one_record_witness :
    mapLookup (buildRelationships [scUserA, scUserB] [scUserB, scUserC]) "B" =
      some scRecordB ∧
    (scRecordB.isFollowing = true ↔ ∃ u ∈ [scUserA, scUserB], u.id = "B") ∧
    (scRecordB.isFollower = true ↔ ∃ u ∈ [scUserB, scUserC], u.id = "B") ∧
    scRecordB.isMutual = (scRecordB.isFollowing && scRecordB.isFollower) :=
  ⟨by decide,
   (classifier_one_record_per_identity [scUserA, scUserB] [scUserB, scUserC] "B").2.2
     scRecordB (by decide)⟩

end XKit
